import Mathlib

set_option maxRecDepth 8000
set_option maxHeartbeats 6000000

/-!
Shallow embedding of the twistmc component framework (src/twistmc.py).

The source builds on Twisted primitives.  The embedding models them as they
behave in Twisted, because the module's correctness depends on those details:

* a Deferred fires its callback chain synchronously (`Deferred.callback`),
  and adding a callback to an already-fired Deferred runs it immediately;
* `reactor.callLater(0.0, ...)` appends a call to a FIFO queue consumed by
  reactor iterations (`step` below runs one scheduled call);
* `defer.DeferredList(ds)` (with its default flags, exactly as the source
  calls it) collects one `(success, result)` pair per input and fires its own
  callback once every input has fired; it never errbacks on an input failure;
* a callback that returns a Deferred pauses the outer chain until the inner
  Deferred fires (chaining);
* an exception raised inside a callback turns the chain into a Failure.

Mutable module state of twistmc (`Plugin.registry`, `Plugin.awaiting`, the
per-plugin `values` dictionaries, the per-instance `READY` deferred) lives in
a `World` record.  User-supplied code (setup functions, plugin constructors)
is external to the repository and is modelled by small repertoires (`Hook`,
`Ctor`) covering the behaviours the claims exercise: returning a value,
raising, or constructing a nested managed component.

The interpreter `exec` is one fuel-indexed structurally recursive function so
that every concrete scenario reduces by `rfl`; each `Act` constructor maps to
one function or loop of the source, as noted case by case.

One modelling choice: the source iterates Python dictionaries
(`objtype.__dict__.iteritems()` in new_component, `Plugin.awaiting.keys()` in
set_ready) whose order CPython 2 leaves unspecified; the embedding fixes
declaration/insertion order.  None of the properties settled here depends on
that order.
-/

namespace TwistMC

/-- Python exception values raised (or wrapped in Twisted Failures) by the
code paths of twistmc.py, plus generic errors for user hooks/constructors and
a marker for interpreter fuel exhaustion. -/
inductive PyErr
  | initTwice      -- ValueError("Cannot initialize a TwistMC plugin twice.")
  | notReady       -- ValueError("Attribute accessed before ready")
  | immutableErr   -- TypeError("Plugins can not be modified")
  | delAttrErr     -- AttributeError: __delete__ (descriptor has no __delete__)
  | suceedAttrErr  -- AttributeError: module 'defer' has no attribute 'suceed'
  | alreadyCalled  -- twisted defer.AlreadyCalledError
  | keyErr         -- Python KeyError / missing lookup
  | indexErr       -- Python IndexError
  | hookErr (n : Nat)  -- generic exception raised by a user setup function
  | ctorErr (n : Nat)  -- generic exception raised by a user constructor
  | fuelOut            -- interpreter fuel exhausted (modelling artifact)
deriving DecidableEq

/-- Python values flowing through deferreds: None, small data, component
instances (by id), Twisted Failure instances, and DeferredList result lists
of (success flag, result) pairs. -/
inductive PyVal
  | pnone
  | pnat (n : Nat)
  | pobj (i : Nat)
  | pfail (e : PyErr)
  | plist (l : List (Bool × PyVal))

/-- A result held by a deferred is a Failure exactly when it is a `pfail`;
this selects the callback vs errback path. -/
def isFailure : PyVal → Bool
  | PyVal.pfail _ => true
  | _ => false

/-- Modelled repertoire of user-supplied setup functions (external to the
repository).  `run_setup` wraps them in `defer.maybeDeferred`, so a setup
function either returns a plain value or raises. -/
inductive Hook
  | hret (v : PyVal)
  | hraise (e : PyErr)

/-- Modelled repertoire of user-supplied plugin constructors (the callable
passed to `plugin(...)`): return a plain value, construct a nested managed
component, or raise. -/
inductive Ctor
  | cval (v : PyVal)
  | ccomp (ty : Nat)
  | craise (e : PyErr)

/-- One dependency declaration attached to a class attribute: a `Plugin`
holding either a direct constructor or a zope interface (capability). -/
inductive PluginDecl
  | direct (c : Ctor)
  | capability (iface : Nat)

/-- Static per-class data: the Plugin attributes found in the class dict, the
`__twistmc_setup__` list, and the zope interfaces the class implements
(what `iface.providedBy(obj)` checks). -/
structure TyDecl where
  plugins : List PluginDecl
  setups : List Hook
  provides : List Nat

/-- The static program: the declared component classes, identified by index. -/
structure Prog where
  types : List TyDecl

/-- Callbacks that twistmc attaches to deferreds.
`record` is DeferredList's internal `_cbDeferred` (attached via
`addCallbacks` on both paths); `setupCB`/`readyCB` are `run_setup` and
`set_ready` attached with `addCallback` (success path only, errback passes
through); `assignCB` is `Plugin.assign` attached in `Plugin.init`;
`resume` is the chaining continuation Twisted installs when a callback
returns a Deferred. -/
inductive CB
  | record (ldid idx : Nat)
  | setupCB (objId tyId : Nat)
  | readyCB (objId : Nat)
  | assignCB (ty idx objId : Nat)
  | resume (did : Nat)

/-- State of one Twisted Deferred: whether `callback`/`errback` was invoked
(`called`), how many times a fire was attempted and accepted (`fires`, for
stating uniqueness), the current chain result when the chain is not running
or paused, and the not-yet-run callbacks. -/
structure DeferredSt where
  called : Bool
  fires : Nat
  result : Option PyVal
  cbs : List CB

/-- A freshly allocated pending Deferred. -/
def DeferredSt.fresh : DeferredSt := ⟨false, 0, none, []⟩

/-- An already-fired Deferred, as produced by `defer.succeed` /
`defer.maybeDeferred` on a synchronous result. -/
def DeferredSt.fired (v : PyVal) : DeferredSt := ⟨true, 1, some v, []⟩

/-- Internal bookkeeping of one DeferredList: the result slots and the count
of inputs that fired so far. -/
structure DLSt where
  results : List (Option (Bool × PyVal))
  finished : Nat

/-- A component instance: its class and the deferred stored under the
well-known READY attribute (absent only before `new_component` sets it). -/
structure ObjSt where
  ty : Nat
  ready : Option Nat

/-- The mutable world: allocated deferreds, DeferredList bookkeeping, the
reactor callLater queue (deferred ids to fire with None), and the module
state of twistmc — `Plugin.registry`, `Plugin.awaiting`, the union of all
plugin `values` dictionaries keyed by (type, plugin index, instance), the
component instances, and a log of exceptions that reached the reactor. -/
structure World where
  defs : List DeferredSt
  dls : List (Nat × DLSt)
  sched : List Nat
  registry : List (Nat × List PyVal)
  awaiting : List (Nat × List Nat)
  pvalues : List ((Nat × Nat × Nat) × PyVal)
  objs : List ObjSt
  errs : List PyErr

/-- The empty initial world (fresh Python process). -/
def w0 : World := ⟨[], [], [], [], [], [], [], []⟩

/-- Read a deferred state (total, defaulting to a fresh deferred). -/
def dget (w : World) (i : Nat) : DeferredSt := w.defs.getD i DeferredSt.fresh

/-- Write a deferred state in place. -/
def dset (w : World) (i : Nat) (d : DeferredSt) : World :=
  { w with defs := w.defs.set i d }

/-- Allocate a new deferred, returning its id. -/
def dalloc (w : World) (d : DeferredSt) : World × Nat :=
  ({ w with defs := w.defs ++ [d] }, w.defs.length)

/-- Update the value stored under a key of an association list in place. -/
def updA {α : Type} (l : List (Nat × α)) (k : Nat) (f : α → α) : List (Nat × α) :=
  l.map (fun p => if p.1 == k then (p.1, f p.2) else p)

/-- Delete a key of an association list (`del mapping[k]`). -/
def delA {α : Type} (l : List (Nat × α)) (k : Nat) : List (Nat × α) :=
  l.filter (fun p => p.1 != k)

/-- Extract the final result list of a DeferredList (all slots filled when it
fires). -/
def collectDL (l : List (Option (Bool × PyVal))) : List (Bool × PyVal) :=
  l.map (fun o => o.getD (true, PyVal.pnone))

/-- The `hasattr(value, READY)` probe followed by `getattr(value, READY)`:
a value exposes a readiness deferred iff it is a managed component instance
whose READY attribute has been set. -/
def readyOf (w : World) : PyVal → Option Nat
  | PyVal.pobj i => (w.objs.get? i).bind ObjSt.ready
  | _ => none

/-- The `iface.providedBy(obj)` test: the instance's class lists the
interface among the ones it implements. -/
def providedBy (p : Prog) (w : World) (objId iface : Nat) : Bool :=
  match w.objs.get? objId with
  | some o =>
    match p.types.get? o.ty with
    | some t => t.provides.contains iface
    | none => false
  | none => false

/-- Build the already-fired deferred `defer.maybeDeferred(setup, obj)`
produces for one synchronous user setup function. -/
def hookDeferred : Hook → DeferredSt
  | Hook.hret v => DeferredSt.fired v
  | Hook.hraise e => DeferredSt.fired (PyVal.pfail e)

/-- Allocate the `maybeDeferred` result for every setup function of a class
(the `defers` list built by `run_setup`). -/
def allocHooks : List Hook → World → World × List Nat
  | [], w => (w, [])
  | h :: rest, w =>
    let x := dalloc w (hookDeferred h)
    let y := allocHooks rest x.1
    (y.1, x.2 :: y.2)

/-- Operations of the interpreter; each constructor corresponds to one
function or loop of twistmc.py (or of the Twisted primitives it calls):

* `fire did v` — `deferred.callback(v)` (or errback when `v` is a Failure);
* `chain did v` — run the pending callback chain of a fired deferred;
* `addCB did cb` — `deferred.addCallback(...)` (runs at once when fired);
* `mkDL ds` — `defer.DeferredList(ds)` with the source's default flags;
* `attach l i ds` — DeferredList attaching `_cbDeferred` to each input;
* `recordDL l i v` — DeferredList `_cbDeferred`: store `(success, result)`,
  fire the list when every input has fired, return the result unchanged;
* `runSetup obj ty` — `run_setup(_, obj, objtype)` (twistmc.py:148);
* `setReady obj` — `set_ready(_, obj)` (twistmc.py:166);
* `drain ks obj` — the `for iface in Plugin.awaiting.keys()` loop;
* `fireAll ws obj` — the `for deferred in Plugin.awaiting[iface]` loop;
* `newComp ty` — `new_component` (twistmc.py:114);
* `initPlugs ty i ps obj` — the plugin loop of `new_component`;
* `plugInit ty i pd obj` — `Plugin.init(obj)` (twistmc.py:197). -/
inductive Act
  | fire (did : Nat) (v : PyVal)
  | chain (did : Nat) (v : PyVal)
  | addCB (did : Nat) (cb : CB)
  | mkDL (ds : List Nat)
  | attach (ldid idx : Nat) (ds : List Nat)
  | recordDL (ldid idx : Nat) (v : PyVal)
  | runSetup (objId tyId : Nat)
  | setReady (objId : Nat)
  | drain (ks : List Nat) (objId : Nat)
  | fireAll (ws : List Nat) (objId : Nat)
  | newComp (tyId : Nat)
  | initPlugs (tyId idx : Nat) (ps : List PluginDecl) (objId : Nat)
  | plugInit (tyId idx : Nat) (pd : PluginDecl) (objId : Nat)

/-- Results of interpreter operations: nothing, an allocated id, a list of
ids, a Python value, or a raised exception. -/
inductive Out
  | unit
  | iden (n : Nat)
  | ids (l : List Nat)
  | val (v : PyVal)
  | err (e : PyErr)

/-- The interpreter.  Fuel only bounds recursion depth (every recursive call
decrements it); all claims are settled either for every fuel or at a fuel
large enough that no `fuelOut` is reachable. -/
def exec (p : Prog) : Nat → Act → World → World × Out
  | 0, _, w => (w, Out.err PyErr.fuelOut)
  | f+1, a, w =>
    match a with
    | Act.fire did v =>
      -- Deferred.callback: refuse a second fire, otherwise run the chain.
      let d := dget w did
      if d.called then (w, Out.err PyErr.alreadyCalled)
      else
        let w1 := dset w did { d with called := true, fires := d.fires + 1 }
        ((exec p f (Act.chain did v) w1).1, Out.unit)
    | Act.chain did v =>
      let d := dget w did
      match d.cbs with
      | [] => (dset w did { d with result := some v }, Out.unit)
      | cb :: rest =>
        let w1 := dset w did { d with cbs := rest }
        match cb with
        | CB.resume outer =>
          -- chained continuation: feed the inner result to the outer chain
          let x := exec p f (Act.chain outer v) w1
          exec p f (Act.chain did v) x.1
        | CB.record l i =>
          match exec p f (Act.recordDL l i v) w1 with
          | (w2, Out.err e) => exec p f (Act.chain did (PyVal.pfail e)) w2
          | (w2, Out.val v2) => exec p f (Act.chain did v2) w2
          | (w2, _) => exec p f (Act.chain did v) w2
        | CB.setupCB o t =>
          -- addCallback: skipped on the errback path
          if isFailure v then exec p f (Act.chain did v) w1
          else
            match exec p f (Act.runSetup o t) w1 with
            | (w2, Out.iden ls) =>
              -- run_setup returns a DeferredList: the chain pauses on it
              exec p f (Act.addCB ls (CB.resume did)) w2
            | (w2, Out.err e) => exec p f (Act.chain did (PyVal.pfail e)) w2
            | (w2, _) => exec p f (Act.chain did v) w2
        | CB.readyCB o =>
          if isFailure v then exec p f (Act.chain did v) w1
          else
            match exec p f (Act.setReady o) w1 with
            | (w2, Out.err e) => exec p f (Act.chain did (PyVal.pfail e)) w2
            | (w2, _) => exec p f (Act.chain did PyVal.pnone) w2
        | CB.assignCB t i o =>
          if isFailure v then exec p f (Act.chain did v) w1
          else
            -- Plugin.assign stores the implementation and returns None
            let w2 := { w1 with pvalues := ((t, i, o), v) :: w1.pvalues }
            exec p f (Act.chain did PyVal.pnone) w2
    | Act.addCB did cb =>
      let d := dget w did
      match d.result with
      | some r =>
        if d.called then
          -- adding to an already-fired deferred runs the chain at once
          let w1 := dset w did { d with result := none, cbs := d.cbs ++ [cb] }
          exec p f (Act.chain did r) w1
        else (dset w did { d with cbs := d.cbs ++ [cb] }, Out.unit)
      | none => (dset w did { d with cbs := d.cbs ++ [cb] }, Out.unit)
    | Act.mkDL ds =>
      let x := dalloc w DeferredSt.fresh
      let w2 := { x.1 with dls := (x.2, ⟨List.replicate ds.length none, 0⟩) :: x.1.dls }
      match ds with
      | [] => ((exec p f (Act.fire x.2 (PyVal.plist [])) w2).1, Out.iden x.2)
      | _ :: _ => ((exec p f (Act.attach x.2 0 ds) w2).1, Out.iden x.2)
    | Act.attach l i ds =>
      match ds with
      | [] => (w, Out.unit)
      | d :: rest =>
        let x := exec p f (Act.addCB d (CB.record l i)) w
        exec p f (Act.attach l (i+1) rest) x.1
    | Act.recordDL l i v =>
      match List.lookup l w.dls with
      | none => (w, Out.val v)
      | some st =>
        let results := st.results.set i (some (!(isFailure v), v))
        let fin := st.finished + 1
        let w1 := { w with dls := updA w.dls l (fun _ => ⟨results, fin⟩) }
        if fin = results.length then
          match exec p f (Act.fire l (PyVal.plist (collectDL results))) w1 with
          | (w2, Out.err e) => (w2, Out.err e)
          | (w2, _) => (w2, Out.val v)
        else (w1, Out.val v)
    | Act.runSetup objId tyId =>
      -- run_setup: maybeDeferred every setup function, then DeferredList
      let hooks := ((p.types.get? tyId).map TyDecl.setups).getD []
      let x := allocHooks hooks w
      match exec p f (Act.mkDL x.2) x.1 with
      | (w2, Out.iden ls) => (w2, Out.iden ls)
      | (w2, _) => (w2, Out.err PyErr.fuelOut)
    | Act.setReady objId =>
      -- set_ready: drain waiters of every provided interface, then fire READY
      match exec p f (Act.drain (w.awaiting.map Prod.fst) objId) w with
      | (w1, Out.err e) => (w1, Out.err e)
      | (w1, _) =>
        match (w1.objs.get? objId).bind ObjSt.ready with
        | some rid =>
          match exec p f (Act.fire rid PyVal.pnone) w1 with
          | (w2, Out.err e) => (w2, Out.err e)
          | (w2, _) => (w2, Out.val PyVal.pnone)
        | none => (w1, Out.err PyErr.keyErr)
    | Act.drain ks objId =>
      match ks with
      | [] => (w, Out.unit)
      | k :: rest =>
        if providedBy p w objId k then
          match List.lookup k w.awaiting with
          | none => (w, Out.err PyErr.keyErr)
          | some ws =>
            match exec p f (Act.fireAll ws objId) w with
            | (w1, Out.err e) => (w1, Out.err e)
            | (w1, _) =>
              exec p f (Act.drain rest objId) { w1 with awaiting := delA w1.awaiting k }
        else exec p f (Act.drain rest objId) w
    | Act.fireAll ws objId =>
      match ws with
      | [] => (w, Out.unit)
      | d :: rest =>
        match exec p f (Act.fire d (PyVal.pobj objId)) w with
        | (w1, Out.err e) => (w1, Out.err e)
        | (w1, _) => exec p f (Act.fireAll rest objId) w1
    | Act.newComp tyId =>
      match p.types.get? tyId with
      | none => (w, Out.err PyErr.keyErr)
      | some ty =>
        -- new_component: allocate the instance, set READY, schedule the
        -- foolguard, init every Plugin, DeferredList, chain run_setup and
        -- set_ready, return the instance synchronously.
        let objId := w.objs.length
        let w1 := { w with objs := w.objs ++ [⟨tyId, none⟩] }
        let x := dalloc w1 DeferredSt.fresh
        let w3 := { x.1 with objs := x.1.objs.set objId ⟨tyId, some x.2⟩ }
        let y := dalloc w3 DeferredSt.fresh
        let w5 := { y.1 with sched := y.1.sched ++ [y.2] }
        match exec p f (Act.initPlugs tyId 0 ty.plugins objId) w5 with
        | (w6, Out.ids dids) =>
          match exec p f (Act.mkDL (y.2 :: dids)) w6 with
          | (w7, Out.iden L) =>
            let z := exec p f (Act.addCB L (CB.setupCB objId tyId)) w7
            let z2 := exec p f (Act.addCB L (CB.readyCB objId)) z.1
            (z2.1, Out.iden objId)
          | (w7, _) => (w7, Out.err PyErr.fuelOut)
        | (w6, Out.err e) => (w6, Out.err e)
        | (w6, _) => (w6, Out.err PyErr.fuelOut)
    | Act.initPlugs tyId idx ps objId =>
      match ps with
      | [] => (w, Out.ids [])
      | pd :: rest =>
        match exec p f (Act.plugInit tyId idx pd objId) w with
        | (w1, Out.iden d) =>
          match exec p f (Act.initPlugs tyId (idx+1) rest objId) w1 with
          | (w2, Out.ids ds) => (w2, Out.ids (d :: ds))
          | (w2, Out.err e) => (w2, Out.err e)
          | (w2, _) => (w2, Out.err PyErr.fuelOut)
        | (w1, Out.err e) => (w1, Out.err e)
        | (w1, _) => (w1, Out.err PyErr.fuelOut)
    | Act.plugInit tyId idx pd objId =>
      -- Plugin.init: refuse a second init once a value is stored, then
      -- either consult the broker (interface) or call the constructor.
      if (List.lookup (tyId, idx, objId) w.pvalues).isSome then
        (w, Out.err PyErr.initTwice)
      else
        match pd with
        | PluginDecl.capability iface =>
          match List.lookup iface w.registry with
          | some impls =>
            -- interface already implemented: take the first registered one
            match impls.head? with
            | some v =>
              let w1 := { w with pvalues := ((tyId, idx, objId), v) :: w.pvalues }
              let x := dalloc w1 (DeferredSt.fired PyVal.pnone)
              (x.1, Out.iden x.2)
            | none => (w, Out.err PyErr.indexErr)
          | none =>
            -- defer until an implementation is available
            let w1 :=
              if (List.lookup iface w.awaiting).isSome then w
              else { w with awaiting := w.awaiting ++ [(iface, [])] }
            let x := dalloc w1 DeferredSt.fresh
            let w3 := (exec p f (Act.addCB x.2 (CB.assignCB tyId idx objId)) x.1).1
            let w4 := { w3 with awaiting := updA w3.awaiting iface (fun l => l ++ [x.2]) }
            (w4, Out.iden x.2)
        | PluginDecl.direct c =>
          match c with
          | Ctor.craise e => (w, Out.err e)
          | Ctor.cval v =>
            let w1 := { w with pvalues := ((tyId, idx, objId), v) :: w.pvalues }
            match readyOf w1 v with
            | some rid => (w1, Out.iden rid)
            | none =>
              -- twistmc.py:231 calls defer.suceed (sic): AttributeError
              (w1, Out.err PyErr.suceedAttrErr)
          | Ctor.ccomp ty2 =>
            match exec p f (Act.newComp ty2) w with
            | (w1, Out.iden obj2) =>
              let w2 := { w1 with pvalues := ((tyId, idx, objId), PyVal.pobj obj2) :: w1.pvalues }
              match readyOf w2 (PyVal.pobj obj2) with
              | some rid => (w2, Out.iden rid)
              | none => (w2, Out.err PyErr.suceedAttrErr)
            | (w1, Out.err e) => (w1, Out.err e)
            | (w1, _) => (w1, Out.err PyErr.fuelOut)

/-- The public constructor entry point `new_component` (twistmc.py:114):
returns the mutated world and either the fresh instance id or the exception
that propagated synchronously out of construction. -/
def new_component (p : Prog) (f tyId : Nat) (w : World) : World × Except PyErr Nat :=
  match exec p f (Act.newComp tyId) w with
  | (w1, Out.iden o) => (w1, Except.ok o)
  | (w1, Out.err e) => (w1, Except.error e)
  | (w1, _) => (w1, Except.error PyErr.fuelOut)

/-- One reactor iteration: run the oldest `callLater(0.0, foolguard.callback,
None)` call; an exception escaping the call is logged by the reactor. -/
def step (p : Prog) (f : Nat) (w : World) : World :=
  match w.sched with
  | [] => w
  | d :: rest =>
    match exec p f (Act.fire d PyVal.pnone) { w with sched := rest } with
    | (w1, Out.err e) => { w1 with errs := w1.errs ++ [e] }
    | (w1, _) => w1

/-- Run a number of reactor iterations. -/
def run (p : Prog) (f : Nat) : Nat → World → World
  | 0, w => w
  | k+1, w => run p f k (step p f w)

/-- The readiness future's current result for an instance: the result of the
deferred stored under READY. -/
def readinessOf (w : World) (objId : Nat) : Option PyVal :=
  match (w.objs.get? objId).bind ObjSt.ready with
  | some rid => (dget w rid).result
  | none => none

/-- The number of accepted fires of an instance's readiness deferred. -/
def readinessFires (w : World) (objId : Nat) : Nat :=
  match (w.objs.get? objId).bind ObjSt.ready with
  | some rid => (dget w rid).fires
  | none => 0

/-- The descriptor protocol `Plugin.__get__` (twistmc.py:238): return the
per-instance value, or raise before resolution has stored one. -/
def pluginGet (w : World) (tyId idx objId : Nat) : Except PyErr PyVal :=
  match List.lookup (tyId, idx, objId) w.pvalues with
  | some v => Except.ok v
  | none => Except.error PyErr.notReady

/-- The descriptor protocol `Plugin.__set__` (twistmc.py:244): always raise. -/
def pluginSet (_w : World) (_tyId _idx _objId : Nat) (_v : PyVal) : Except PyErr Unit :=
  Except.error PyErr.immutableErr

/-- Attribute deletion on a plugin attribute.  The class defines `__set__`
(so the Plugin is a data descriptor) and a method named `__deleted__`
(twistmc.py:247) — which is not part of the descriptor protocol, so CPython's
`del obj.attr` fails with AttributeError: __delete__, and the TypeError of
`__deleted__` is never raised. -/
def pluginDelete (_w : World) (_tyId _idx _objId : Nat) : Except PyErr Unit :=
  Except.error PyErr.delAttrErr

/-- Modelled from the spec, for refinement comparison only (section 4.1):
`all(futures)` resolves when every input resolves and fails on the first
failure, propagating that error.  The code's combination is `mkDL`
(defer.DeferredList) above; this definition follows the spec's words. -/
def specCombineAll (rs : List PyVal) : PyVal :=
  match rs.find? isFailure with
  | some fv => fv
  | none => PyVal.plist (rs.map (fun v => (true, v)))

/-- Test for the Capability variant of a plugin declaration. -/
def isCap : PluginDecl → Bool
  | PluginDecl.capability _ => true
  | PluginDecl.direct _ => false

/-- Worlds reachable from a fresh Python process by the operations the core
lifecycle offers: constructing a component and running reactor iterations. -/
inductive Reach (p : Prog) : World → Prop
  | base : Reach p w0
  | construct (tyId f : Nat) {w : World} : Reach p w → Reach p (new_component p f tyId w).1
  | tick (f : Nat) {w : World} : Reach p w → Reach p (step p f w)

/-- Preservation relation for the construction phase: the deferred store only
grows, the result/called/fires state of every pre-existing deferred is
untouched, and the instances and the broker registry are unchanged. -/
def Pres (w w2 : World) : Prop :=
  w.defs.length ≤ w2.defs.length ∧
  (∀ j, j < w.defs.length →
    (dget w2 j).result = (dget w j).result ∧
    (dget w2 j).called = (dget w j).called ∧
    (dget w2 j).fires = (dget w j).fires) ∧
  w2.objs = w.objs ∧ w2.registry = w.registry

/- Concrete scenarios used by the claims.  Deferred ids are allocated in
order, so they can be named explicitly in the statements. -/

/-- A class with no plugins and no setup functions (implementing interface 3,
which plays no role because nobody awaits it). -/
def progC5 : Prog := ⟨[⟨[], [], [3]⟩]⟩

/-- The world right after constructing the dependency-free component:
deferred 0 is its READY deferred, deferred 1 the foolguard, 2 the
DeferredList. -/
def wC5 : World := (new_component progC5 50 0 w0).1

/-- A class whose only plugin awaits interface 9, which nobody implements. -/
def progC8 : Prog := ⟨[⟨[PluginDecl.capability 9], [], []⟩]⟩

/-- The world right after constructing the consumer: deferred 0 is READY,
1 the foolguard, 2 the broker waiter, 3 the DeferredList. -/
def wC8 : World := (new_component progC8 50 0 w0).1

/-- Consumer class awaiting interface 9, and an implementor of interface 9
whose single setup function raises. -/
def progC1 (e : PyErr) : Prog :=
  ⟨[⟨[PluginDecl.capability 9], [], []⟩, ⟨[], [Hook.hraise e], [9]⟩]⟩

/-- Construct the consumer (instance 0, READY deferred 0, waiter 2), then the
implementor (instance 1, READY deferred 4), then run two reactor iterations;
deferred 8 is the implementor's setup DeferredList. -/
def wC1 (e : PyErr) : World :=
  run (progC1 e) 60 2 (new_component (progC1 e) 60 1 (new_component (progC1 e) 60 0 w0).1).1

/-- A program with no declared classes (DeferredList is independent of it). -/
def progEmpty : Prog := ⟨[]⟩

/-- Two bare deferreds: deferred 0 already failed with `e`, deferred 1
pending. -/
def wFailPending (e : PyErr) : World :=
  ⟨[DeferredSt.fired (PyVal.pfail e), DeferredSt.fresh], [], [], [], [], [], [], []⟩

/-- The world after `defer.DeferredList([d0, d1])` (deferred 2) over the
failed-plus-pending pair. -/
def wDL (e : PyErr) : World := (exec progEmpty 50 (Act.mkDL [0, 1]) (wFailPending e)).1

/-- An implementor of interface 9 with no dependencies, and a consumer class
awaiting interface 9. -/
def progC3 : Prog := ⟨[⟨[], [], [9]⟩, ⟨[PluginDecl.capability 9], [], []⟩]⟩

/-- Construct the implementor (instance 0, READY deferred 0) and run one
reactor iteration, so it is Ready before any consumer exists. -/
def wC3ready : World := run progC3 60 1 (new_component progC3 60 0 w0).1

/-- Then construct the late consumer (instance 1, READY deferred 4, broker
waiter deferred 6) and run one more reactor iteration. -/
def wC3late : World := run progC3 60 1 (new_component progC3 60 1 wC3ready).1

/-- A class whose single plugin is a direct constructor returning the plain
value 42 (no READY attribute). -/
def progC4 : Prog := ⟨[⟨[PluginDecl.direct (Ctor.cval (PyVal.pnat 42))], [], []⟩]⟩

/-- Consumer class awaiting interface 9, and a dependency-free implementor of
interface 9. -/
def progC6 : Prog := ⟨[⟨[PluginDecl.capability 9], [], []⟩, ⟨[], [], [9]⟩]⟩

/-- Construct the consumer (instance 0, waiter deferred 2), then the
implementor (instance 1, READY deferred 4), then run both scheduled
foolguards. -/
def wC6 : World :=
  run progC6 60 2 (new_component progC6 60 1 (new_component progC6 60 0 w0).1).1

/-- Program for the descriptor-contract scenarios. -/
def progC7 : Prog := ⟨[⟨[PluginDecl.capability 9], [], []⟩]⟩

/-- The world after a first `Plugin.init` for a capability plugin with no
implementor: waiter deferred 0 is enqueued for interface 9, and no value is
stored for the (descriptor, instance) pair. -/
def wC7a : World := (exec progC7 50 (Act.plugInit 0 0 (PluginDecl.capability 9) 0) w0).1

/-- A world whose only state is one stored plugin value for the key
(type 0, plugin 0, instance 0). -/
def wC7v : World := ⟨[], [], [], [], [], [((0, 0, 0), PyVal.pnat 1)], [], []⟩

/-- A class whose single plugin is a direct constructor that raises. -/
def progC10x : Prog := ⟨[⟨[PluginDecl.direct (Ctor.craise (PyErr.ctorErr 0))], [], []⟩]⟩

/-- A class with one capability plugin, used to witness the amended C10. -/
def progC10 : Prog := ⟨[⟨[PluginDecl.capability 9], [], []⟩]⟩

/-- The state of `new_component` just before the plugin loop runs: the fresh
instance appended, its READY deferred allocated (id = old defs length) and
stored, the foolguard allocated (next id) and scheduled.  Definitionally equal
to the corresponding prefix of the `Act.newComp` branch of `exec`; used to
name that intermediate world in the construction-phase lemmas. -/
def constrPre (w : World) (tyId : Nat) : World :=
  let objId := w.objs.length
  let w1 : World := { w with objs := w.objs ++ [⟨tyId, none⟩] }
  let x := dalloc w1 DeferredSt.fresh
  let w3 : World := { x.1 with objs := x.1.objs.set objId ⟨tyId, some x.2⟩ }
  let y := dalloc w3 DeferredSt.fresh
  { y.1 with sched := y.1.sched ++ [y.2] }

/- ### Helper lemmas -/

/-- A reactor iteration on an empty callLater queue does nothing. -/
theorem step_sched_nil {p : Prog} {f : Nat} {w : World} (h : w.sched = []) :
    step p f w = w := by
  unfold step
  rw [h]

/-- Any number of reactor iterations on an empty callLater queue does
nothing. -/
theorem run_sched_nil {p : Prog} {f : Nat} {w : World} (h : w.sched = []) :
    ∀ k, run p f k w = w := by
  intro k
  induction k with
  | zero => rfl
  | succ k ih =>
    show run p f k (step p f w) = w
    rw [step_sched_nil h, ih]

/-- Transport a preservation fact through an interpreter equation. -/
theorem registry_after {p : Prog} {f : Nat} {a : Act} {w w2 : World} {o : Out}
    (ih : ∀ a w, ((exec p f a w).1).registry = w.registry)
    (h : exec p f a w = (w2, o)) : w2.registry = w.registry := by
  have hx := ih a w
  rw [h] at hx
  exact hx

/- ### Claims C1 to C8 on the concrete scenarios -/

/-- C1 (counterexample).  The consumer's capability descriptor is pending on
interface 9; the implementor's only setup hook raises, so by the spec's
`all` semantics the combined setup wait fails (`specCombineAll` of the hook
results is that failure, and the setup DeferredList recorded the failure).
Yet in the code the implementor's readiness deferred fires successfully, and
the pending waiter is resolved with the implementor (its value is assigned to
the consumer's descriptor), contradicting the claim that the readiness
Future fails and that no pending waiter is resolved. -/
theorem c1_counterexample :
    specCombineAll [PyVal.pfail (PyErr.hookErr 0)] = PyVal.pfail (PyErr.hookErr 0) ∧
    List.lookup 8 (wC1 (PyErr.hookErr 0)).dls =
      some ⟨[some (false, PyVal.pfail (PyErr.hookErr 0))], 1⟩ ∧
    readinessOf (wC1 (PyErr.hookErr 0)) 1 = some PyVal.pnone ∧
    readinessFires (wC1 (PyErr.hookErr 0)) 1 = 1 ∧
    List.lookup (0, 0, 0) (wC1 (PyErr.hookErr 0)).pvalues = some (PyVal.pobj 1) ∧
    readinessOf (wC1 (PyErr.hookErr 0)) 0 = some PyVal.pnone :=
  ⟨rfl, rfl, rfl, rfl, rfl, rfl⟩

/-- C1 (amended).  When a setup hook raises (representative error
`hookErr 1`), the DeferredList combining the hook results records the failure
and fires successfully: the instance still proceeds to set_ready, its
readiness deferred fires with success, pending waiters for its interfaces are
drained and resolved with it, and no exception reaches the reactor — the
failure is swallowed, not propagated to the readiness Future. -/
theorem c1_amended :
    List.lookup 8 (wC1 (PyErr.hookErr 1)).dls =
      some ⟨[some (false, PyVal.pfail (PyErr.hookErr 1))], 1⟩ ∧
    readinessOf (wC1 (PyErr.hookErr 1)) 1 = some PyVal.pnone ∧
    readinessFires (wC1 (PyErr.hookErr 1)) 1 = 1 ∧
    List.lookup (0, 0, 0) (wC1 (PyErr.hookErr 1)).pvalues = some (PyVal.pobj 1) ∧
    readinessOf (wC1 (PyErr.hookErr 1)) 0 = some PyVal.pnone ∧
    (wC1 (PyErr.hookErr 1)).errs = [] :=
  ⟨rfl, rfl, rfl, rfl, rfl, rfl⟩

/-- C2 (counterexample).  `defer.DeferredList([f1, f2])` where f1 has already
failed and f2 is pending does not fail with f1's error: the combined deferred
(id 2) is still pending and was never firedatall. -/
theorem c2_counterexample :
    (exec progEmpty 50 (Act.mkDL [0, 1]) (wFailPending (PyErr.hookErr 0))).2 = Out.iden 2 ∧
    (dget (wDL (PyErr.hookErr 0)) 2).result = none ∧
    (dget (wDL (PyErr.hookErr 0)) 2).called = false :=
  ⟨rfl, rfl, rfl⟩

/-- C2 (amended).  DeferredList with a failed first input (representative
error `hookErr 1`) and a pending second input stays pending until every input
has fired; once f2 fires (with 5), the combination fires successfully with
the list of (success, result) pairs — the failure is recorded in the list,
never propagated as a failure of the combination. -/
theorem c2_amended :
    (dget (wDL (PyErr.hookErr 1)) 2).result = none ∧
    (dget (wDL (PyErr.hookErr 1)) 2).called = false ∧
    (dget ((exec progEmpty 50 (Act.fire 1 (PyVal.pnat 5)) (wDL (PyErr.hookErr 1))).1) 2).result =
      some (PyVal.plist [(false, PyVal.pfail (PyErr.hookErr 1)), (true, PyVal.pnat 5)]) :=
  ⟨rfl, rfl, rfl⟩

/-- C3 (code evaluated at the failing input).  The implementor of interface 9
is Ready (its readiness deferred fired successfully), but `set_ready` never
added it to `Plugin.registry`, which is still empty; a consumer constructed
afterwards therefore takes the pending-waiter path: its waiter (deferred 6)
and its readiness deferred stay pending for every further number of reactor
iterations, instead of resolving immediately with the ready implementor as
the claim states. -/
theorem c3_late_consumer_stuck (k : Nat) :
    readinessOf wC3ready 0 = some PyVal.pnone ∧
    wC3ready.registry = [] ∧
    readinessOf (run progC3 60 k wC3late) 1 = none ∧
    (dget (run progC3 60 k wC3late) 6).result = none ∧
    (dget (run progC3 60 k wC3late) 6).called = false ∧
    List.lookup 9 (run progC3 60 k wC3late).awaiting = some [6] ∧
    (run progC3 60 k wC3late).registry = [] := by
  rw [run_sched_nil (rfl : wC3late.sched = []) k]
  exact ⟨rfl, rfl, rfl, rfl, rfl, rfl, rfl⟩

/-- C4 (code evaluated at the failing input).  Resolving a Direct descriptor
whose constructor returns the plain value 42 stores the value and then hits
the misspelt `defer.suceed` (twistmc.py:231): construction fails with the
AttributeError instead of returning a resolution future completed
successfully. -/
theorem c4_suceed_attribute_error :
    (new_component progC4 50 0 w0).2 = Except.error PyErr.suceedAttrErr ∧
    List.lookup (0, 0, 0) ((new_component progC4 50 0 w0).1).pvalues =
      some (PyVal.pnat 42) :=
  ⟨rfl, rfl⟩

/-- C5.  For the canonical component with no plugins and no setup functions:
construction succeeds synchronously returning instance 0, its readiness
deferred is still pending (never fired) when construction returns, and after
any positive number of reactor iterations it has fired exactly once,
successfully, with no exception reaching the reactor — so readiness resolves
exactly once, on a scheduling step strictly after construction returned. -/
theorem c5_zero_dep_readiness (k : Nat) :
    (new_component progC5 50 0 w0).2 = Except.ok 0 ∧
    readinessOf wC5 0 = none ∧
    readinessFires wC5 0 = 0 ∧
    readinessOf (run progC5 50 (k+1) wC5) 0 = some PyVal.pnone ∧
    readinessFires (run progC5 50 (k+1) wC5) 0 = 1 ∧
    (run progC5 50 (k+1) wC5).errs = [] := by
  have hs : (step progC5 50 wC5).sched = [] := rfl
  have hr : run progC5 50 (k+1) wC5 = step progC5 50 wC5 := by
    show run progC5 50 k (step progC5 50 wC5) = _
    exact run_sched_nil hs k
  refine ⟨rfl, rfl, rfl, ?_, ?_, ?_⟩ <;> rw [hr] <;> rfl

/-- C6 (code evaluated at the failing input).  When the implementor of
interface 9 becomes Ready while a waiter is pending, `set_ready` does drain
the pending waiter — it fires with the implementor, the consumer's
descriptor receives the implementor, the awaiting map is emptied and both
instances become Ready — but the instance is never appended to the
capability's ready list: `Plugin.registry` is still empty, contradicting the
claim's append-to-ready-list conjunct. -/
theorem c6_publish_misses_registry :
    List.lookup (0, 0, 0) wC6.pvalues = some (PyVal.pobj 1) ∧
    (dget wC6 2).fires = 1 ∧
    (dget wC6 2).result = some PyVal.pnone ∧
    readinessOf wC6 0 = some PyVal.pnone ∧
    readinessOf wC6 1 = some PyVal.pnone ∧
    wC6.awaiting = [] ∧
    wC6.registry = [] :=
  ⟨rfl, rfl, rfl, rfl, rfl, rfl, rfl⟩

/-- C7 (counterexample).  After a first `Plugin.init` for a capability
descriptor whose interface has no implementor, the resolution is still
pending and no value is stored; a second `Plugin.init` for the same
(descriptor, instance) pair does not fail with the double-initialization
error: it returns a second waiter deferred (id 1) and enqueues it, so the
broker now holds two waiters for interface 9. -/
theorem c7_counterexample :
    (exec progC7 50 (Act.plugInit 0 0 (PluginDecl.capability 9) 0) wC7a).2 = Out.iden 1 ∧
    List.lookup 9
      ((exec progC7 50 (Act.plugInit 0 0 (PluginDecl.capability 9) 0) wC7a).1).awaiting =
      some [0, 1] :=
  ⟨rfl, rfl⟩

/-- C8.  For a component whose only plugin awaits interface 9 that nobody
ever publishes: after any number of reactor iterations the broker waiter
(deferred 2) is still pending and never fired, the instance's readiness
deferred is still pending, the waiter is still enqueued, and no error is ever
raised — the passage of scheduler time alone resolves nothing. -/
theorem c8_never_published (k : Nat) :
    readinessOf (run progC8 50 k wC8) 0 = none ∧
    (dget (run progC8 50 k wC8) 2).result = none ∧
    (dget (run progC8 50 k wC8) 2).called = false ∧
    (dget (run progC8 50 k wC8) 2).fires = 0 ∧
    List.lookup 9 (run progC8 50 k wC8).awaiting = some [2] ∧
    (run progC8 50 k wC8).errs = [] := by
  match k with
  | 0 => exact ⟨rfl, rfl, rfl, rfl, rfl, rfl⟩
  | k+1 =>
    have hs : (step progC8 50 wC8).sched = [] := rfl
    have hr : run progC8 50 (k+1) wC8 = step progC8 50 wC8 := by
      show run progC8 50 k (step progC8 50 wC8) = _
      exact run_sched_nil hs k
    rw [hr]
    exact ⟨rfl, rfl, rfl, rfl, rfl, rfl⟩

/-- C10 (counterexample).  For a class whose Direct descriptor's constructor
raises, construction does not return the freshly allocated instance: the
exception propagates synchronously out of `new_component`. -/
theorem c10_counterexample :
    (new_component progC10x 50 0 w0).2 = Except.error (PyErr.ctorErr 0) := rfl


/- ### Interpreter-level invariants (claims C9, C10, C7) -/

/-- Allocating hook deferreds never touches the broker registry. -/
theorem allocHooks_registry :
    ∀ (hs : List Hook) (w : World), ((allocHooks hs w).1).registry = w.registry := by
  intro hs
  induction hs with
  | nil => intro w; rfl
  | cons h rest ih => intro w; exact (ih _).trans rfl

/-- Core preservation fact behind C9: no interpreter operation (firing or
chaining deferreds, DeferredList bookkeeping, run_setup, set_ready and its
drain loops, new_component, Plugin.init) ever writes `Plugin.registry`.
Proved by induction on fuel with a case per operation. -/
theorem exec_registry (p : Prog) : ∀ f a w, ((exec p f a w).1).registry = w.registry := by
  intro f
  induction f with
  | zero => intro a w; rfl
  | succ f ih =>
    intro a w
    cases a with
    | fire did v =>
      simp only [exec]
      split
      · rfl
      · exact (ih _ _).trans rfl
    | chain did v =>
      simp only [exec]
      split
      · rfl
      · split
        · exact (ih _ _).trans ((ih _ _).trans rfl)
        · split
          next w2 e h2 => exact (ih _ _).trans ((registry_after ih h2).trans rfl)
          next w2 v2 h2 => exact (ih _ _).trans ((registry_after ih h2).trans rfl)
          next w2 o2 h3 h4 h2 => exact (ih _ _).trans ((registry_after ih h2).trans rfl)
        · split
          · exact (ih _ _).trans rfl
          · split
            next w2 ls h2 => exact (ih _ _).trans ((registry_after ih h2).trans rfl)
            next w2 e h2 => exact (ih _ _).trans ((registry_after ih h2).trans rfl)
            next w2 o2 h3 h4 h2 => exact (ih _ _).trans ((registry_after ih h2).trans rfl)
        · split
          · exact (ih _ _).trans rfl
          · split
            next w2 e h2 => exact (ih _ _).trans ((registry_after ih h2).trans rfl)
            next w2 o2 h3 h2 => exact (ih _ _).trans ((registry_after ih h2).trans rfl)
        · split
          · exact (ih _ _).trans rfl
          · exact (ih _ _).trans rfl
    | addCB did cb =>
      simp only [exec]
      split
      · split
        · exact (ih _ _).trans rfl
        · rfl
      · rfl
    | mkDL ds =>
      simp only [exec]
      split
      · exact (ih _ _).trans rfl
      · exact (ih _ _).trans rfl
    | attach l i ds =>
      simp only [exec]
      split
      · rfl
      · exact (ih _ _).trans ((ih _ _).trans rfl)
    | recordDL l i v =>
      simp only [exec]
      split
      · rfl
      · split
        · split
          next w2 e h2 => exact (registry_after ih h2).trans rfl
          next w2 o2 h3 h2 => exact (registry_after ih h2).trans rfl
        · rfl
    | runSetup objId tyId =>
      simp only [exec]
      split
      next w2 ls h2 => exact (registry_after ih h2).trans (allocHooks_registry _ _)
      next w2 o2 h3 h2 => exact (registry_after ih h2).trans (allocHooks_registry _ _)
    | setReady objId =>
      simp only [exec]
      split
      next w1 e h1 => exact (registry_after ih h1).trans rfl
      next w1 o1 h3 h1 =>
        split
        · split
          next w2 e h2 => exact (registry_after ih h2).trans ((registry_after ih h1).trans rfl)
          next w2 o2 h4 h2 => exact (registry_after ih h2).trans ((registry_after ih h1).trans rfl)
        · exact (registry_after ih h1).trans rfl
    | drain ks objId =>
      simp only [exec]
      split
      · rfl
      · split
        · split
          · rfl
          · split
            next w1 e h1 => exact (registry_after ih h1).trans rfl
            next w1 o1 h3 h1 => exact (ih _ _).trans ((registry_after ih h1).trans rfl)
        · exact (ih _ _).trans rfl
    | fireAll ws objId =>
      simp only [exec]
      split
      · rfl
      · split
        next w1 e h1 => exact (registry_after ih h1).trans rfl
        next w1 o1 h3 h1 => exact (ih _ _).trans ((registry_after ih h1).trans rfl)
    | newComp tyId =>
      simp only [exec]
      split
      · rfl
      · split
        next w6 dids h1 =>
          split
          next w7 L h2 =>
            exact (ih _ _).trans ((ih _ _).trans
              ((registry_after ih h2).trans ((registry_after ih h1).trans rfl)))
          next w7 o2 h3 h2 =>
            exact (registry_after ih h2).trans ((registry_after ih h1).trans rfl)
        next w6 e h1 => exact (registry_after ih h1).trans rfl
        next w6 o1 h3 h4 h1 => exact (registry_after ih h1).trans rfl
    | initPlugs tyId idx ps objId =>
      simp only [exec]
      split
      · rfl
      · split
        next w1 d h1 =>
          split
          next w2 ds2 h2 => exact (registry_after ih h2).trans ((registry_after ih h1).trans rfl)
          next w2 e h2 => exact (registry_after ih h2).trans ((registry_after ih h1).trans rfl)
          next w2 o2 h3 h4 h2 =>
            exact (registry_after ih h2).trans ((registry_after ih h1).trans rfl)
        next w1 e h1 => exact (registry_after ih h1).trans rfl
        next w1 o1 h3 h4 h1 => exact (registry_after ih h1).trans rfl
    | plugInit tyId idx pd objId =>
      simp only [exec]
      split
      · rfl
      · split
        · split
          · split
            · rfl
            · rfl
          · exact (ih _ _).trans (by split <;> rfl)
        · split
          · rfl
          · split
            · rfl
            · rfl
          · split
            next w1 obj2 h1 =>
              split
              · exact (registry_after ih h1).trans rfl
              · exact (registry_after ih h1).trans rfl
            next w1 e h1 => exact (registry_after ih h1).trans rfl
            next w1 o1 h3 h4 h1 => exact (registry_after ih h1).trans rfl

/-- Pres is reflexive. -/
theorem Pres.refl (w : World) : Pres w w :=
  ⟨Nat.le_refl _, fun _ _ => ⟨rfl, rfl, rfl⟩, rfl, rfl⟩

/-- Pres composes. -/
theorem Pres.trans {w1 w2 w3 : World} (h1 : Pres w1 w2) (h2 : Pres w2 w3) : Pres w1 w3 := by
  obtain ⟨l1, e1, o1, r1⟩ := h1
  obtain ⟨l2, e2, o2, r2⟩ := h2
  refine ⟨Nat.le_trans l1 l2, ?_, o2.trans o1, r2.trans r1⟩
  intro j hj
  obtain ⟨a1, b1, c1⟩ := e1 j hj
  obtain ⟨a2, b2, c2⟩ := e2 j (Nat.lt_of_lt_of_le hj l1)
  exact ⟨a2.trans a1, b2.trans b1, c2.trans c1⟩

/-- A record update that only changes dls, sched, awaiting, pvalues or errs
preserves the deferred store, instances and registry. -/
theorem Pres_mk {w : World} {dls sched awaiting pvalues errs} :
    Pres w ⟨w.defs, dls, sched, w.registry, awaiting, pvalues, w.objs, errs⟩ :=
  ⟨Nat.le_refl _, fun _ _ => ⟨rfl, rfl, rfl⟩, rfl, rfl⟩

/-- Allocation leaves existing deferred slots unchanged. -/
theorem dget_dalloc_lt {w : World} {d : DeferredSt} {j : Nat} (h : j < w.defs.length) :
    dget (dalloc w d).1 j = dget w j := by
  simp [dget, dalloc, List.getD, List.getElem?_append_left h]

/-- Reading the slot just allocated gives the allocated deferred. -/
theorem dget_dalloc_self (w : World) (d : DeferredSt) :
    dget (dalloc w d).1 (dalloc w d).2 = d := by
  simp [dget, dalloc, List.getD]

/-- Allocation preserves every existing deferred. -/
theorem Pres_dalloc (w : World) (d : DeferredSt) : Pres w (dalloc w d).1 := by
  refine ⟨?_, ?_, rfl, rfl⟩
  · simp [dalloc]
  · intro j hj
    rw [dget_dalloc_lt hj]
    exact ⟨rfl, rfl, rfl⟩

/-- Writing one slot leaves the others unchanged. -/
theorem dget_dset_ne {w : World} {i j : Nat} {d : DeferredSt} (h : i ≠ j) :
    dget (dset w i d) j = dget w j := by
  simp [dget, dset, List.getD, List.getElem?_set_ne h]

/-- Reading a slot just written gives the written deferred. -/
theorem dget_dset_self {w : World} {i : Nat} {d : DeferredSt} (h : i < w.defs.length) :
    dget (dset w i d) i = d := by
  simp [dget, dset, List.getD, List.getElem?_set_eq_of_lt d h]

/-- Adding a callback to a pending deferred only queues it: the store grows
nowhere, and the result/called/fires state of every deferred (including the
target) is unchanged. -/
theorem addCB_pending (p : Prog) (f did : Nat) (cb : CB) (w : World)
    (h : (dget w did).result = none) :
    Pres w (exec p f (Act.addCB did cb) w).1 ∧
    (∀ j, (dget ((exec p f (Act.addCB did cb) w).1) j).result = (dget w j).result ∧
      (dget ((exec p f (Act.addCB did cb) w).1) j).called = (dget w j).called ∧
      (dget ((exec p f (Act.addCB did cb) w).1) j).fires = (dget w j).fires) := by
  cases f with
  | zero => exact ⟨Pres.refl w, fun _ => ⟨rfl, rfl, rfl⟩⟩
  | succ f =>
    have hgoal : exec p (f+1) (Act.addCB did cb) w =
        (dset w did { dget w did with cbs := (dget w did).cbs ++ [cb] }, Out.unit) := by
      simp only [exec, h]
    rw [hgoal]
    have hall : ∀ j,
        (dget (dset w did { dget w did with cbs := (dget w did).cbs ++ [cb] }) j).result =
          (dget w j).result ∧
        (dget (dset w did { dget w did with cbs := (dget w did).cbs ++ [cb] }) j).called =
          (dget w j).called ∧
        (dget (dset w did { dget w did with cbs := (dget w did).cbs ++ [cb] }) j).fires =
          (dget w j).fires := by
      intro j
      by_cases hd : did = j
      · subst hd
        by_cases hl : did < w.defs.length
        · rw [dget_dset_self hl]
          exact ⟨rfl, rfl, rfl⟩
        · have hset : dset w did { dget w did with cbs := (dget w did).cbs ++ [cb] } = w := by
            simp only [dset]
            rw [List.set_eq_of_length_le (Nat.le_of_not_lt hl)]
          rw [hset]
          exact ⟨rfl, rfl, rfl⟩
      · rw [dget_dset_ne hd]
        exact ⟨rfl, rfl, rfl⟩
    refine ⟨⟨?_, fun j _ => hall j, rfl, rfl⟩, hall⟩
    simp [dset]
/-- Pres follows from equality of the defs, objs and registry fields. -/
theorem Pres_of_fields {w w2 : World} (hdefs : w2.defs = w.defs) (hobjs : w2.objs = w.objs)
    (hreg : w2.registry = w.registry) : Pres w w2 := by
  refine ⟨by rw [hdefs], ?_, hobjs, hreg⟩
  intro j hj
  simp [dget, hdefs]

/-- Shared core of the two broker-miss branches of `Plugin.init` for an
interface dependency: allocate a fresh waiter, queue the assign callback on
it, update the awaiting map.  The pre-existing state is preserved and the
returned waiter is pending and unfired. -/
theorem plugInit_cap_core (p : Prog) (f t i o : Nat) (w W1 : World) (hP1 : Pres w W1)
    (A : List (Nat × List Nat)) :
    Pres w { (exec p f (Act.addCB (dalloc W1 DeferredSt.fresh).2 (CB.assignCB t i o))
              (dalloc W1 DeferredSt.fresh).1).1 with awaiting := A } ∧
    (dget { (exec p f (Act.addCB (dalloc W1 DeferredSt.fresh).2 (CB.assignCB t i o))
              (dalloc W1 DeferredSt.fresh).1).1 with awaiting := A }
        (dalloc W1 DeferredSt.fresh).2).result = none ∧
    (dget { (exec p f (Act.addCB (dalloc W1 DeferredSt.fresh).2 (CB.assignCB t i o))
              (dalloc W1 DeferredSt.fresh).1).1 with awaiting := A }
        (dalloc W1 DeferredSt.fresh).2).called = false ∧
    (dget { (exec p f (Act.addCB (dalloc W1 DeferredSt.fresh).2 (CB.assignCB t i o))
              (dalloc W1 DeferredSt.fresh).1).1 with awaiting := A }
        (dalloc W1 DeferredSt.fresh).2).fires = 0 ∧
    (dalloc W1 DeferredSt.fresh).2 <
      ({ (exec p f (Act.addCB (dalloc W1 DeferredSt.fresh).2 (CB.assignCB t i o))
              (dalloc W1 DeferredSt.fresh).1).1 with awaiting := A }).defs.length := by
  obtain ⟨hP, hE⟩ := addCB_pending p f (dalloc W1 DeferredSt.fresh).2 (CB.assignCB t i o)
      (dalloc W1 DeferredSt.fresh).1 (by rw [dget_dalloc_self]; rfl)
  have hsame : ∀ j, dget { (exec p f (Act.addCB (dalloc W1 DeferredSt.fresh).2
        (CB.assignCB t i o)) (dalloc W1 DeferredSt.fresh).1).1 with awaiting := A } j =
      dget ((exec p f (Act.addCB (dalloc W1 DeferredSt.fresh).2 (CB.assignCB t i o))
        (dalloc W1 DeferredSt.fresh).1).1) j := fun _ => rfl
  have hsd := dget_dalloc_self W1 DeferredSt.fresh
  obtain ⟨hr, hc, hf⟩ := hE (dalloc W1 DeferredSt.fresh).2
  refine ⟨?_, ?_, ?_, ?_, ?_⟩
  · exact Pres.trans hP1 (Pres.trans (Pres_dalloc W1 _)
      (Pres.trans hP (Pres_of_fields rfl rfl rfl)))
  · rw [hsame, hr, hsd]; rfl
  · rw [hsame, hc, hsd]; rfl
  · rw [hsame, hf, hsd]; rfl
  · have h1 : (dalloc W1 DeferredSt.fresh).2 < ((dalloc W1 DeferredSt.fresh).1).defs.length := by
      simp [dalloc]
    exact Nat.lt_of_lt_of_le h1 hP.1

/-- With an empty registry, `Plugin.init` for an interface dependency
preserves all pre-existing deferreds, instances and the registry, and any
deferred it returns is pending and unfired. -/
theorem plugInit_cap (p : Prog) (f t i o k : Nat) (w : World) (hreg : w.registry = []) :
    Pres w (exec p f (Act.plugInit t i (PluginDecl.capability k) o) w).1 ∧
    (∀ d, (exec p f (Act.plugInit t i (PluginDecl.capability k) o) w).2 = Out.iden d →
      d < ((exec p f (Act.plugInit t i (PluginDecl.capability k) o) w).1).defs.length ∧
      (dget ((exec p f (Act.plugInit t i (PluginDecl.capability k) o) w).1) d).result = none ∧
      (dget ((exec p f (Act.plugInit t i (PluginDecl.capability k) o) w).1) d).called = false ∧
      (dget ((exec p f (Act.plugInit t i (PluginDecl.capability k) o) w).1) d).fires = 0) := by
  cases f with
  | zero =>
    refine ⟨Pres.refl w, ?_⟩
    intro d hd
    simp [exec] at hd
  | succ f =>
    by_cases hpv : (List.lookup (t, i, o) w.pvalues).isSome = true
    · have hgoal : exec p (f+1) (Act.plugInit t i (PluginDecl.capability k) o) w =
          (w, Out.err PyErr.initTwice) := by
        simp only [exec, hpv, if_true]
      rw [hgoal]
      refine ⟨Pres.refl w, ?_⟩
      intro d hd
      simp at hd
    · have hpv2 : (List.lookup (t, i, o) w.pvalues).isSome = false := by
        cases h2 : (List.lookup (t, i, o) w.pvalues).isSome with
        | false => rfl
        | true => exact absurd h2 hpv
      have hlk : List.lookup k w.registry = none := by rw [hreg]; rfl
      simp only [exec, hpv2, hlk, Bool.false_eq_true, if_false]
      by_cases hA : (List.lookup k w.awaiting).isSome = true
      · simp only [hA, if_true]
        obtain ⟨hc1, hc2, hc3, hc4, hc5⟩ :=
          plugInit_cap_core p f t i o w w (Pres.refl w) _
        refine ⟨hc1, ?_⟩
        intro d hd
        rw [Out.iden.injEq] at hd
        subst hd
        exact ⟨hc5, hc2, hc3, hc4⟩
      · simp only [hA, Bool.false_eq_true, if_false]
        obtain ⟨hc1, hc2, hc3, hc4, hc5⟩ :=
          plugInit_cap_core p f t i o w { w with awaiting := w.awaiting ++ [(k, [])] }
            Pres_mk _
        refine ⟨hc1, ?_⟩
        intro d hd
        rw [Out.iden.injEq] at hd
        subst hd
        exact ⟨hc5, hc2, hc3, hc4⟩

/-- The plugin loop of `new_component`, over interface dependencies only and
with an empty registry, preserves all pre-existing deferreds, instances and
the registry, and every returned waiter is pending and unfired. -/
theorem initPlugs_cap (p : Prog) :
    ∀ (ps : List PluginDecl) (f t i o : Nat) (w : World),
    ps.all isCap = true → w.registry = [] →
    Pres w (exec p f (Act.initPlugs t i ps o) w).1 ∧
    (∀ ds, (exec p f (Act.initPlugs t i ps o) w).2 = Out.ids ds →
      ∀ d ∈ ds, d < ((exec p f (Act.initPlugs t i ps o) w).1).defs.length ∧
        (dget ((exec p f (Act.initPlugs t i ps o) w).1) d).result = none ∧
        (dget ((exec p f (Act.initPlugs t i ps o) w).1) d).called = false ∧
        (dget ((exec p f (Act.initPlugs t i ps o) w).1) d).fires = 0) := by
  intro ps
  induction ps with
  | nil =>
    intro f t i o w hcaps hreg
    cases f with
    | zero =>
      refine ⟨Pres.refl w, ?_⟩
      intro ds hds
      simp [exec] at hds
    | succ f =>
      have hgoal : exec p (f+1) (Act.initPlugs t i [] o) w = (w, Out.ids []) := by
        simp [exec]
      rw [hgoal]
      refine ⟨Pres.refl w, ?_⟩
      intro ds hds d hd
      rw [Out.ids.injEq] at hds
      subst hds
      simp at hd
  | cons pd rest ih =>
    intro f t i o w hcaps hreg
    have hcaps2 := hcaps
    rw [List.all_cons, Bool.and_eq_true] at hcaps2
    obtain ⟨hcap1, hcaprest⟩ := hcaps2
    obtain ⟨k, hk⟩ : ∃ k, pd = PluginDecl.capability k := by
      cases pd with
      | capability k => exact ⟨k, rfl⟩
      | direct c => simp [isCap] at hcap1
    subst hk
    cases f with
    | zero =>
      refine ⟨Pres.refl w, ?_⟩
      intro ds hds
      simp [exec] at hds
    | succ f =>
      obtain ⟨hpi, hpid⟩ := plugInit_cap p f t i o k w hreg
      simp only [exec]
      split
      next w1 d heq1 =>
        have hw1 : Pres w w1 := by rw [heq1] at hpi; exact hpi
        have hreg1 : w1.registry = [] := hw1.2.2.2.trans hreg
        have hd : d < w1.defs.length ∧ (dget w1 d).result = none ∧
            (dget w1 d).called = false ∧ (dget w1 d).fires = 0 := by
          have hx := hpid d
          rw [heq1] at hx
          exact hx rfl
        obtain ⟨hrec1, hrec2⟩ := ih f t (i+1) o w1 hcaprest hreg1
        split
        next w2 ds2 heq2 =>
          have hw2 : Pres w1 w2 := by rw [heq2] at hrec1; exact hrec1
          refine ⟨Pres.trans hw1 hw2, ?_⟩
          intro ds hds d2 hd2
          replace hds : Out.ids (d :: ds2) = Out.ids ds := hds
          rw [Out.ids.injEq] at hds
          subst hds
          rcases List.mem_cons.mp hd2 with h | h
          · subst h
            obtain ⟨e1, e2, e3⟩ := hw2.2.1 d2 hd.1
            exact ⟨Nat.lt_of_lt_of_le hd.1 hw2.1,
              e1.trans hd.2.1, e2.trans hd.2.2.1, e3.trans hd.2.2.2⟩
          · have hx := hrec2 ds2
            rw [heq2] at hx
            exact hx rfl d2 h
        next w2 e heq2 =>
          have hw2 : Pres w1 w2 := by rw [heq2] at hrec1; exact hrec1
          refine ⟨Pres.trans hw1 hw2, ?_⟩
          intro ds hds
          exact Out.noConfusion (hds : Out.err e = Out.ids ds)
        next w2 o2 h3 h4 heq2 =>
          have hw2 : Pres w1 w2 := by rw [heq2] at hrec1; exact hrec1
          refine ⟨Pres.trans hw1 hw2, ?_⟩
          intro ds hds
          exact Out.noConfusion (hds : Out.err PyErr.fuelOut = Out.ids ds)
      next w1 e heq1 =>
        have hw1 : Pres w w1 := by rw [heq1] at hpi; exact hpi
        refine ⟨hw1, ?_⟩
        intro ds hds
        exact Out.noConfusion (hds : Out.err e = Out.ids ds)
      next w1 o1 h3 h4 heq1 =>
        have hw1 : Pres w w1 := by rw [heq1] at hpi; exact hpi
        refine ⟨hw1, ?_⟩
        intro ds hds
        exact Out.noConfusion (hds : Out.err PyErr.fuelOut = Out.ids ds)

/-- Attaching DeferredList record callbacks to all-pending inputs only
queues callbacks: nothing fires, every deferred state is preserved. -/
theorem attach_pending (p : Prog) :
    ∀ (ds : List Nat) (f l i : Nat) (w : World),
    (∀ d ∈ ds, d < w.defs.length ∧ (dget w d).result = none) →
    Pres w (exec p f (Act.attach l i ds) w).1 := by
  intro ds
  induction ds with
  | nil =>
    intro f l i w _
    cases f with
    | zero => exact Pres.refl w
    | succ f =>
      have hgoal : exec p (f+1) (Act.attach l i []) w = (w, Out.unit) := by
        simp [exec]
      rw [hgoal]
      exact Pres.refl w
  | cons d rest ih =>
    intro f l i w h
    cases f with
    | zero => exact Pres.refl w
    | succ f =>
      simp only [exec]
      obtain ⟨hP1, hE1⟩ := addCB_pending p f d (CB.record l i) w
        (h d (List.mem_cons_self d rest)).2
      refine Pres.trans hP1 (ih f l (i+1) _ ?_)
      intro d2 hd2
      have hd2w := h d2 (List.mem_cons_of_mem d hd2)
      obtain ⟨e1, _, _⟩ := hE1 d2
      exact ⟨Nat.lt_of_lt_of_le hd2w.1 hP1.1, e1.trans hd2w.2⟩

/-- Creating a DeferredList over a nonempty list of pending inputs preserves
all deferred state, and the new list deferred is itself pending and
unfired. -/
theorem mkDL_pending (p : Prog) (f : Nat) (d0 : Nat) (ds : List Nat) (w : World)
    (h : ∀ d ∈ (d0 :: ds), d < w.defs.length ∧ (dget w d).result = none) :
    Pres w (exec p f (Act.mkDL (d0 :: ds)) w).1 ∧
    (∀ L, (exec p f (Act.mkDL (d0 :: ds)) w).2 = Out.iden L →
      L < ((exec p f (Act.mkDL (d0 :: ds)) w).1).defs.length ∧
      (dget ((exec p f (Act.mkDL (d0 :: ds)) w).1) L).result = none ∧
      (dget ((exec p f (Act.mkDL (d0 :: ds)) w).1) L).called = false ∧
      (dget ((exec p f (Act.mkDL (d0 :: ds)) w).1) L).fires = 0) := by
  cases f with
  | zero =>
    refine ⟨Pres.refl w, ?_⟩
    intro L hL
    simp [exec] at hL
  | succ f =>
    simp only [exec]
    have hW2 : Pres w { (dalloc w DeferredSt.fresh).1 with
        dls := ((dalloc w DeferredSt.fresh).2,
          (⟨List.replicate (d0 :: ds).length none, 0⟩ : DLSt)) :: (dalloc w DeferredSt.fresh).1.dls } :=
      Pres.trans (Pres_dalloc w _) (Pres_of_fields rfl rfl rfl)
    have hpend : ∀ d ∈ (d0 :: ds), d < ({ (dalloc w DeferredSt.fresh).1 with
        dls := ((dalloc w DeferredSt.fresh).2,
          (⟨List.replicate (d0 :: ds).length none, 0⟩ : DLSt)) :: (dalloc w DeferredSt.fresh).1.dls }).defs.length ∧
        (dget { (dalloc w DeferredSt.fresh).1 with
          dls := ((dalloc w DeferredSt.fresh).2,
            (⟨List.replicate (d0 :: ds).length none, 0⟩ : DLSt)) :: (dalloc w DeferredSt.fresh).1.dls } d).result = none := by
      intro d hd
      obtain ⟨h1, h2⟩ := h d hd
      obtain ⟨e1, _, _⟩ := hW2.2.1 d h1
      exact ⟨Nat.lt_of_lt_of_le h1 hW2.1, e1.trans h2⟩
    have hAt := attach_pending p (d0 :: ds) f (dalloc w DeferredSt.fresh).2 0 _ hpend
    have hPall : Pres w (exec p f (Act.attach (dalloc w DeferredSt.fresh).2 0 (d0 :: ds))
        { (dalloc w DeferredSt.fresh).1 with
          dls := ((dalloc w DeferredSt.fresh).2,
            (⟨List.replicate (d0 :: ds).length none, 0⟩ : DLSt)) :: (dalloc w DeferredSt.fresh).1.dls }).1 :=
      Pres.trans hW2 hAt
    have hLp : (dget (exec p f (Act.attach (dalloc w DeferredSt.fresh).2 0 (d0 :: ds))
        { (dalloc w DeferredSt.fresh).1 with
          dls := ((dalloc w DeferredSt.fresh).2,
            (⟨List.replicate (d0 :: ds).length none, 0⟩ : DLSt)) :: (dalloc w DeferredSt.fresh).1.dls }).1
        (dalloc w DeferredSt.fresh).2).result = none ∧
        (dget (exec p f (Act.attach (dalloc w DeferredSt.fresh).2 0 (d0 :: ds))
        { (dalloc w DeferredSt.fresh).1 with
          dls := ((dalloc w DeferredSt.fresh).2,
            (⟨List.replicate (d0 :: ds).length none, 0⟩ : DLSt)) :: (dalloc w DeferredSt.fresh).1.dls }).1
        (dalloc w DeferredSt.fresh).2).called = false ∧
        (dget (exec p f (Act.attach (dalloc w DeferredSt.fresh).2 0 (d0 :: ds))
        { (dalloc w DeferredSt.fresh).1 with
          dls := ((dalloc w DeferredSt.fresh).2,
            (⟨List.replicate (d0 :: ds).length none, 0⟩ : DLSt)) :: (dalloc w DeferredSt.fresh).1.dls }).1
        (dalloc w DeferredSt.fresh).2).fires = 0 := by
      have hself := dget_dalloc_self w DeferredSt.fresh
      have hlt : (dalloc w DeferredSt.fresh).2 < ((dalloc w DeferredSt.fresh).1).defs.length := by
        simp [dalloc]
      obtain ⟨e1, e2, e3⟩ := hAt.2.1 (dalloc w DeferredSt.fresh).2 hlt
      refine ⟨e1.trans ?_, e2.trans ?_, e3.trans ?_⟩
      · show (dget (dalloc w DeferredSt.fresh).1 (dalloc w DeferredSt.fresh).2).result = none
        rw [hself]
        rfl
      · show (dget (dalloc w DeferredSt.fresh).1 (dalloc w DeferredSt.fresh).2).called = false
        rw [hself]
        rfl
      · show (dget (dalloc w DeferredSt.fresh).1 (dalloc w DeferredSt.fresh).2).fires = 0
        rw [hself]
        rfl
    refine ⟨hPall, ?_⟩
    intro L hL
    replace hL : Out.iden (dalloc w DeferredSt.fresh).2 = Out.iden L := hL
    rw [Out.iden.injEq] at hL
    subst hL
    have hlt2 : (dalloc w DeferredSt.fresh).2 < ((dalloc w DeferredSt.fresh).1).defs.length := by
      simp [dalloc]
    exact ⟨Nat.lt_of_lt_of_le hlt2 hAt.1, hLp.1, hLp.2.1, hLp.2.2⟩

/-- The construction prefix does not touch the registry. -/
theorem constrPre_registry (w : World) (tyId : Nat) :
    (constrPre w tyId).registry = w.registry := rfl

/-- The construction prefix allocates exactly the READY deferred and the
foolguard. -/
theorem constrPre_defs (w : World) (tyId : Nat) :
    (constrPre w tyId).defs = (w.defs ++ [DeferredSt.fresh]) ++ [DeferredSt.fresh] := rfl

/-- The construction prefix appends the fresh instance and then stores its
READY deferred id. -/
theorem constrPre_objs (w : World) (tyId : Nat) :
    (constrPre w tyId).objs =
      (w.objs ++ [(⟨tyId, none⟩ : ObjSt)]).set w.objs.length
        (⟨tyId, some w.defs.length⟩ : ObjSt) := rfl

/-- Reading the first of two appended elements. -/
theorem getD_concat_left {α : Type} (l : List α) (a b d : α) :
    ((l ++ [a]) ++ [b]).getD l.length d = a := by
  have h : l.length < (l ++ [a]).length := by simp
  have h1 : ((l ++ [a]) ++ [b])[l.length]? = (l ++ [a])[l.length]? :=
    List.getElem?_append_left h
  have h2 : (l ++ [a])[l.length]? = some a := by simp
  rw [h2] at h1
  rw [List.getD_eq_getElem?_getD, h1]
  rfl

/-- Reading the second of two appended elements. -/
theorem getD_concat_right {α : Type} (l : List α) (a b d : α) :
    ((l ++ [a]) ++ [b]).getD (l ++ [a]).length d = b := by
  have h2 : ((l ++ [a]) ++ [b])[(l ++ [a]).length]? = some b := by
    rw [List.getElem?_append_right (Nat.le_refl _)]
    simp
  rw [List.getD_eq_getElem?_getD, h2]
  rfl

/-- In the construction prefix, the READY deferred (allocated first, before
any plugin is resolved) is fresh: pending and never fired. -/
theorem dget_constrPre_rd (w : World) (tyId : Nat) :
    dget (constrPre w tyId) w.defs.length = DeferredSt.fresh := by
  show ((w.defs ++ [DeferredSt.fresh]) ++ [DeferredSt.fresh]).getD w.defs.length
    DeferredSt.fresh = DeferredSt.fresh
  exact getD_concat_left w.defs DeferredSt.fresh DeferredSt.fresh DeferredSt.fresh

/-- In the construction prefix, the foolguard deferred is fresh. -/
theorem dget_constrPre_fg (w : World) (tyId : Nat) :
    dget (constrPre w tyId) (w.defs ++ [DeferredSt.fresh]).length = DeferredSt.fresh := by
  show ((w.defs ++ [DeferredSt.fresh]) ++ [DeferredSt.fresh]).getD
    (w.defs ++ [DeferredSt.fresh]).length DeferredSt.fresh = DeferredSt.fresh
  exact getD_concat_right w.defs DeferredSt.fresh DeferredSt.fresh DeferredSt.fresh

/-- The READY deferred id is in range after the construction prefix. -/
theorem constrPre_rd_lt (w : World) (tyId : Nat) :
    w.defs.length < (constrPre w tyId).defs.length := by
  rw [constrPre_defs]
  simp

/-- The foolguard deferred id is in range after the construction prefix. -/
theorem constrPre_fg_lt (w : World) (tyId : Nat) :
    (w.defs ++ [DeferredSt.fresh]).length < (constrPre w tyId).defs.length := by
  rw [constrPre_defs]
  simp

/-- Equation-style corollary of `initPlugs_cap`. -/
theorem initPlugs_cap2 (p : Prog) {ps : List PluginDecl} {f t i o : Nat} {W w6 : World}
    {ds : List Nat}
    (heq : exec p f (Act.initPlugs t i ps o) W = (w6, Out.ids ds))
    (hcaps : ps.all isCap = true) (hreg : W.registry = []) :
    Pres W w6 ∧ ∀ d ∈ ds, d < w6.defs.length ∧ (dget w6 d).result = none ∧
      (dget w6 d).called = false ∧ (dget w6 d).fires = 0 := by
  obtain ⟨h1, h2⟩ := initPlugs_cap p ps f t i o W hcaps hreg
  rw [heq] at h1 h2
  exact ⟨h1, fun d hd => h2 ds rfl d hd⟩

/-- Equation-style corollary of `mkDL_pending`. -/
theorem mkDL_pending2 (p : Prog) {f d0 : Nat} {ds : List Nat} {W w7 : World} {L : Nat}
    (heq : exec p f (Act.mkDL (d0 :: ds)) W = (w7, Out.iden L))
    (h : ∀ d ∈ (d0 :: ds), d < W.defs.length ∧ (dget W d).result = none) :
    Pres W w7 ∧ L < w7.defs.length ∧ (dget w7 L).result = none ∧
      (dget w7 L).called = false ∧ (dget w7 L).fires = 0 := by
  obtain ⟨h1, h2⟩ := mkDL_pending p f d0 ds W h
  rw [heq] at h1 h2
  exact ⟨h1, h2 L rfl⟩

/-- Construction of a component whose dependencies are all interface
(capability) dependencies, against an empty registry: when it returns an
instance, that instance is the fresh one (old objs length), the whole
construction preserves everything allocated before it plus its own READY
deferred, and that READY deferred (allocated before any dependency was
resolved) is still pending and unfired when construction returns. -/
theorem newComp_cap (p : Prog) (f tyId : Nat) (w : World) (ty : TyDecl)
    (hty : p.types.get? tyId = some ty)
    (hcaps : ty.plugins.all isCap = true)
    (hreg : w.registry = []) :
    ∀ o, (exec p f (Act.newComp tyId) w).2 = Out.iden o →
      o = w.objs.length ∧
      Pres (constrPre w tyId) (exec p f (Act.newComp tyId) w).1 ∧
      (dget ((exec p f (Act.newComp tyId) w).1) w.defs.length).result = none ∧
      (dget ((exec p f (Act.newComp tyId) w).1) w.defs.length).called = false ∧
      (dget ((exec p f (Act.newComp tyId) w).1) w.defs.length).fires = 0 := by
  cases f with
  | zero =>
    intro o ho
    simp [exec] at ho
  | succ f =>
    have hstep : exec p (f+1) (Act.newComp tyId) w =
        (match exec p f (Act.initPlugs tyId 0 ty.plugins w.objs.length) (constrPre w tyId) with
         | (w6, Out.ids dids) =>
            match exec p f (Act.mkDL ((w.defs ++ [DeferredSt.fresh]).length :: dids)) w6 with
            | (w7, Out.iden L) =>
              ((exec p f (Act.addCB L (CB.readyCB w.objs.length))
                (exec p f (Act.addCB L (CB.setupCB w.objs.length tyId)) w7).1).1,
               Out.iden w.objs.length)
            | (w7, _) => (w7, Out.err PyErr.fuelOut)
         | (w6, Out.err e) => (w6, Out.err e)
         | (w6, _) => (w6, Out.err PyErr.fuelOut)) := by
      simp only [exec, hty]
      rfl
    rw [hstep]
    split
    next w6 dids heq1 =>
      obtain ⟨hP6, hD6⟩ := initPlugs_cap2 p heq1 hcaps
        ((constrPre_registry w tyId).trans hreg)
      split
      next w7 L heq2 =>
        have hfg : (dget w6 (w.defs ++ [DeferredSt.fresh]).length).result = none ∧
            (w.defs ++ [DeferredSt.fresh]).length < w6.defs.length := by
          obtain ⟨e1, _, _⟩ := hP6.2.1 (w.defs ++ [DeferredSt.fresh]).length
            (constrPre_fg_lt w tyId)
          refine ⟨e1.trans ?_, Nat.lt_of_lt_of_le (constrPre_fg_lt w tyId) hP6.1⟩
          rw [dget_constrPre_fg]
          rfl
        have hin : ∀ d ∈ ((w.defs ++ [DeferredSt.fresh]).length :: dids),
            d < w6.defs.length ∧ (dget w6 d).result = none := by
          intro d hd
          rcases List.mem_cons.mp hd with h | h
          · subst h
            exact ⟨hfg.2, hfg.1⟩
          · obtain ⟨hx1, hx2, _, _⟩ := hD6 d h
            exact ⟨hx1, hx2⟩
        obtain ⟨hP7, hL⟩ := mkDL_pending2 p heq2 hin
        intro o ho
        replace ho : Out.iden w.objs.length = Out.iden o := ho
        rw [Out.iden.injEq] at ho
        obtain ⟨hPz1, hEz1⟩ := addCB_pending p f L (CB.setupCB w.objs.length tyId) w7
          hL.2.1
        obtain ⟨hPz2, hEz2⟩ := addCB_pending p f L (CB.readyCB w.objs.length)
          (exec p f (Act.addCB L (CB.setupCB w.objs.length tyId)) w7).1
          ((hEz1 L).1.trans hL.2.1)
        have hPres : Pres (constrPre w tyId)
            (exec p f (Act.addCB L (CB.readyCB w.objs.length))
              (exec p f (Act.addCB L (CB.setupCB w.objs.length tyId)) w7).1).1 :=
          Pres.trans hP6 (Pres.trans hP7 (Pres.trans hPz1 hPz2))
        have hrdlt := constrPre_rd_lt w tyId
        obtain ⟨er, ec, ef⟩ := hPres.2.1 w.defs.length hrdlt
        refine ⟨ho.symm, hPres, ?_, ?_, ?_⟩
        · rw [er, dget_constrPre_rd]
          rfl
        · rw [ec, dget_constrPre_rd]
          rfl
        · rw [ef, dget_constrPre_rd]
          rfl
      next w7 o2 h3 heq2 =>
        intro o ho
        exact Out.noConfusion (ho : Out.err PyErr.fuelOut = Out.iden o)
    next w6 e heq1 =>
      intro o ho
      exact Out.noConfusion (ho : Out.err e = Out.iden o)
    next w6 o1 h3 h4 heq1 =>
      intro o ho
      exact Out.noConfusion (ho : Out.err PyErr.fuelOut = Out.iden o)

/-- Function new_component never writes the registry. -/
theorem new_component_registry (p : Prog) (f tyId : Nat) (w : World) :
    ((new_component p f tyId w).1).registry = w.registry := by
  unfold new_component
  split
  next w1 o h => exact (registry_after (exec_registry p f) h).trans rfl
  next w1 e h => exact (registry_after (exec_registry p f) h).trans rfl
  next w1 o h1 h2 h => exact (registry_after (exec_registry p f) h).trans rfl

/-- A reactor iteration never writes the registry. -/
theorem step_registry (p : Prog) (f : Nat) (w : World) :
    (step p f w).registry = w.registry := by
  unfold step
  split
  · rfl
  next d rest heq =>
    split
    next w1 e h => exact (registry_after (exec_registry p f) h).trans rfl
    next w1 o hne h => exact (registry_after (exec_registry p f) h).trans rfl

/-- C9.  No operation of the core module ever adds an entry to the broker
ready-implementor registry `Plugin.registry`: in every world reachable from a
fresh process by constructing components and running reactor iterations the
registry is empty, so the lookup `Plugin.init` performs on it always misses
and every Capability resolution takes the pending-waiter path. -/
theorem c9_registry_never_written (p : Prog) (w : World) (h : Reach p w) :
    w.registry = [] ∧ ∀ i, List.lookup i w.registry = none := by
  induction h with
  | base => exact ⟨rfl, fun _ => rfl⟩
  | construct tyId f hr ih =>
    constructor
    · rw [new_component_registry]
      exact ih.1
    · intro i
      rw [new_component_registry, ih.1]
      rfl
  | tick f hr ih =>
    constructor
    · rw [step_registry]
      exact ih.1
    · intro i
      rw [step_registry, ih.1]
      rfl

/-- Witness for C9 at a concrete reachable world: construct the capability
consumer and run one reactor iteration. -/
theorem c9_witness :
    (step progC8 50 (new_component progC8 50 0 w0).1).registry = [] ∧
    List.lookup 9 (step progC8 50 (new_component progC8 50 0 w0).1).registry = none := by
  obtain ⟨h1, h2⟩ := c9_registry_never_written progC8 _
    (Reach.tick 50 (Reach.construct 0 50 Reach.base))
  exact ⟨h1, h2 9⟩

/-- C10 (amended).  For a component class whose dependency descriptors are
all Capability descriptors (the ones whose resolution can later succeed,
fail, or stay pending forever) and an empty broker registry: whenever
construction returns normally, it returns the freshly allocated instance (id
equal to the previous instance count) synchronously, with a new readiness
deferred, allocated before any dependency descriptor was resolved (at the
previous deferred count), stored under READY and still pending and never
fired when construction returns. -/
theorem c10_amended (p : Prog) (f tyId : Nat) (w : World) (ty : TyDecl)
    (hty : p.types.get? tyId = some ty)
    (hcaps : ty.plugins.all isCap = true)
    (hreg : w.registry = [])
    (objId : Nat) (w2 : World)
    (hok : new_component p f tyId w = (w2, Except.ok objId)) :
    objId = w.objs.length ∧
    w2.objs[objId]? = some ⟨tyId, some w.defs.length⟩ ∧
    (dget w2 w.defs.length).result = none ∧
    (dget w2 w.defs.length).called = false ∧
    (dget w2 w.defs.length).fires = 0 := by
  have hE : exec p f (Act.newComp tyId) w = (w2, Out.iden objId) := by
    unfold new_component at hok
    cases hq : exec p f (Act.newComp tyId) w with
    | mk w1 o1 =>
      rw [hq] at hok
      cases o1 with
      | iden o =>
        replace hok : (w1, Except.ok o) = (w2, Except.ok objId) := hok
        rw [Prod.mk.injEq, Except.ok.injEq] at hok
        rw [hok.1, hok.2]
      | err e =>
        replace hok : (w1, Except.error e) = (w2, Except.ok objId) := hok
        rw [Prod.mk.injEq] at hok
        exact Except.noConfusion hok.2
      | unit =>
        replace hok : (w1, Except.error PyErr.fuelOut) = (w2, Except.ok objId) := hok
        rw [Prod.mk.injEq] at hok
        exact Except.noConfusion hok.2
      | ids l =>
        replace hok : (w1, Except.error PyErr.fuelOut) = (w2, Except.ok objId) := hok
        rw [Prod.mk.injEq] at hok
        exact Except.noConfusion hok.2
      | val v =>
        replace hok : (w1, Except.error PyErr.fuelOut) = (w2, Except.ok objId) := hok
        rw [Prod.mk.injEq] at hok
        exact Except.noConfusion hok.2
  have hex2 : (exec p f (Act.newComp tyId) w).2 = Out.iden objId := by rw [hE]
  have hex1 : (exec p f (Act.newComp tyId) w).1 = w2 := by rw [hE]
  have hall := newComp_cap p f tyId w ty hty hcaps hreg objId hex2
  rw [hex1] at hall
  obtain ⟨h1, hP, h3, h4, h5⟩ := hall
  refine ⟨h1, ?_, h3, h4, h5⟩
  rw [hP.2.2.1, constrPre_objs, h1]
  have hlt : w.objs.length < (w.objs ++ [(⟨tyId, none⟩ : ObjSt)]).length := by simp
  exact List.getElem?_set_eq_of_lt _ hlt

/-- Witness for C10 (amended) at the concrete one-capability class. -/
theorem c10_witness :
    ((new_component progC10 50 0 w0).1).objs[0]? = some ⟨0, some 0⟩ ∧
    (dget ((new_component progC10 50 0 w0).1) 0).result = none ∧
    (dget ((new_component progC10 50 0 w0).1) 0).called = false ∧
    (dget ((new_component progC10 50 0 w0).1) 0).fires = 0 := by
  obtain ⟨h1, h2, h3, h4, h5⟩ := c10_amended progC10 50 0 w0
    ⟨[PluginDecl.capability 9], [], []⟩ rfl rfl rfl 0 (new_component progC10 50 0 w0).1 rfl
  exact ⟨h2, h3, h4, h5⟩

/-- C7 (amended).  For every (descriptor, instance) pair: a second
`Plugin.init` fails with the double-initialization ValueError exactly when a
value is already stored; reading the attribute before a value is stored
fails with the not-ready ValueError, and reading after returns the value;
assigning always fails with the immutable TypeError; deleting fails, but
with the AttributeError for the missing special delete slot (the class
misnames it), not the TypeError; and a second init of a Capability
descriptor whose wait is still pending does not fail: it returns a fresh
waiter deferred. -/
theorem c7_amended (p : Prog) (f t i o kf : Nat) (pd : PluginDecl) (w : World) (v : PyVal) :
    ((List.lookup (t, i, o) w.pvalues).isSome = true →
      exec p (f+1) (Act.plugInit t i pd o) w = (w, Out.err PyErr.initTwice)) ∧
    (List.lookup (t, i, o) w.pvalues = some v → pluginGet w t i o = Except.ok v) ∧
    (List.lookup (t, i, o) w.pvalues = none → pluginGet w t i o = Except.error PyErr.notReady) ∧
    pluginSet w t i o v = Except.error PyErr.immutableErr ∧
    pluginDelete w t i o = Except.error PyErr.delAttrErr ∧
    ((List.lookup (t, i, o) w.pvalues).isSome = false → w.registry = [] →
      (exec p (f+1) (Act.plugInit t i (PluginDecl.capability kf) o) w).2 =
        Out.iden w.defs.length) := by
  refine ⟨?_, ?_, ?_, rfl, rfl, ?_⟩
  · intro h
    simp only [exec, h, if_true]
  · intro h
    simp only [pluginGet, h]
  · intro h
    simp only [pluginGet, h]
  · intro h1 h2
    have hlk : List.lookup kf w.registry = none := by rw [h2]; rfl
    simp only [exec, h1, hlk, Bool.false_eq_true, if_false]
    split <;> rfl

/-- Witness for C7 (amended) at concrete stores. -/
theorem c7_witness :
    exec progC7 3 (Act.plugInit 0 0 (PluginDecl.capability 9) 0) wC7v =
      (wC7v, Out.err PyErr.initTwice) ∧
    pluginGet wC7v 0 0 0 = Except.ok (PyVal.pnat 1) ∧
    pluginGet w0 0 0 0 = Except.error PyErr.notReady ∧
    pluginSet w0 0 0 0 PyVal.pnone = Except.error PyErr.immutableErr ∧
    pluginDelete w0 0 0 0 = Except.error PyErr.delAttrErr ∧
    (exec progC7 3 (Act.plugInit 0 0 (PluginDecl.capability 9) 0) w0).2 = Out.iden 0 := by
  obtain ⟨h1, h2, _, _, _, _⟩ :=
    c7_amended progC7 2 0 0 0 9 (PluginDecl.capability 9) wC7v (PyVal.pnat 1)
  obtain ⟨_, _, g3, g4, g5, g6⟩ :=
    c7_amended progC7 2 0 0 0 9 (PluginDecl.capability 9) w0 (PyVal.pnat 1)
  exact ⟨h1 rfl, h2 rfl, g3 rfl, g4, g5, g6 rfl rfl⟩


end TwistMC
